import Mathlib

/-!
Verification of the incremental clinical-trial synchronization pipeline in
`database/python/update_script.py` against its natural-language specification.

This file shallowly embeds the pipeline:
  * `processTrial` / `process_trials` embed `process_trials` (the Normalizer);
  * `fetchLoop` / `fetchRun` embed the pagination loop of
    `fetch_recent_updates` (the Fetcher), with the remote source modelled as a
    scripted list of page responses (a page of studies with an optional
    continuation token, or a transport/decode failure); running off the end of
    the script is modelled as a transport failure on the next request;
  * `update_database` embeds `update_database` (the Persister) over a store
    modelled as a list of records; the single transaction that the code opens
    for the whole batch (one `conn.commit()` after the loop, no per-record
    commit and no rollback) is modelled faithfully, including PostgreSQL's
    behaviour that a failed statement aborts the transaction (subsequent
    statements fail until rollback, and the final COMMIT rolls back);
  * `computeWatermark` and `mainRun` / `runOnce` embed `main` (the
    SyncController): watermark computation, the fetch, the conditional
    persistence and the conditional recompute trigger.

Dates are modelled as natural numbers (e.g. 20240110 for 2024-01-10); the
`updated_at` housekeeping timestamp column of the table is outside the model.
-/

/-- the `identificationModule` section of a raw payload; every field is
optional, matching the defensive `.get` access in the code. -/
structure IdentificationModule where
  nctId : Option String := none
  briefTitle : Option String := none
  officialTitle : Option String := none
deriving DecidableEq, Repr

/-- the `designInfo` sub-dictionary of the `designModule` section. -/
structure DesignInfoRaw where
  allocation : Option String := none
  interventionModel : Option String := none
  primaryPurpose : Option String := none
  masking : Option String := none
  whoMasked : List String := []
deriving DecidableEq, Repr

/-- the `designModule` section; `phases = none` models an absent `phases`
key, `phases = some []` a present but empty list. -/
structure DesignModule where
  phases : Option (List String) := none
  designInfo : DesignInfoRaw := {}
deriving DecidableEq, Repr

/-- the `statusModule` section of a raw payload. -/
structure StatusModule where
  overallStatus : Option String := none
  enrollmentCount : Option Nat := none
  startDate : Option Nat := none
  completionDate : Option Nat := none
  lastUpdatePostDate : Option Nat := none
deriving DecidableEq, Repr

/-- the `sponsorCollaboratorsModule` section, reduced to the one path the
code reads: `leadSponsor.name`. -/
structure SponsorModule where
  leadSponsorName : Option String := none
deriving DecidableEq, Repr

/-- the `conditionsModule` section; the code defaults both lists to `[]`. -/
structure ConditionsModule where
  conditions : List String := []
  keywords : List String := []
deriving DecidableEq, Repr

/-- the `outcomesModule` section; outcome descriptors are kept opaque. -/
structure OutcomesModule where
  primaryOutcomes : List String := []
  secondaryOutcomes : List String := []
deriving DecidableEq, Repr

/-- the `eligibilityModule` section. -/
structure EligibilityModule where
  eligibilityCriteria : Option String := none
  gender : Option String := none
  minimumAge : Option String := none
  maximumAge : Option String := none
  healthyVolunteers : Option Bool := none
deriving DecidableEq, Repr

/-- the `biospecModule` section. -/
structure BiospecModule where
  biospecRetention : Option String := none
  biospecDescription : Option String := none
deriving DecidableEq, Repr

/-- one raw study payload: the content of its `protocolSection` (the code
reads `studyType` directly off the protocol section). -/
structure Study where
  identification : IdentificationModule := {}
  design : DesignModule := {}
  status : StatusModule := {}
  sponsor : SponsorModule := {}
  conditionsModule : ConditionsModule := {}
  outcomes : OutcomesModule := {}
  eligibility : EligibilityModule := {}
  biospec : BiospecModule := {}
  studyType : Option String := none
deriving DecidableEq, Repr

/-- the `conditions` structured sub-document of a normalized record. -/
structure Conditions where
  conditions : List String := []
  keywords : List String := []
deriving DecidableEq, Repr

/-- the `outcome_measures` structured sub-document of a normalized record. -/
structure OutcomeMeasures where
  primary : List String := []
  secondary : List String := []
deriving DecidableEq, Repr

/-- the `eligibility_criteria` structured sub-document of a normalized
record. -/
structure EligibilityCriteria where
  criteria : Option String := none
  gender : Option String := none
  min_age : Option String := none
  max_age : Option String := none
  healthy_volunteers : Option Bool := none
deriving DecidableEq, Repr

/-- the `design_info` structured sub-document of a normalized record. -/
structure DesignInfo where
  allocation : Option String := none
  intervention_model : Option String := none
  primary_purpose : Option String := none
  masking : Option String := none
  who_masked : List String := []
deriving DecidableEq, Repr

/-- one normalized, flat trial record: the `trial_data` dictionary built by
`process_trials`, which is also the row shape of the store table (minus the
store-maintained `updated_at` timestamp column). -/
structure TrialRecord where
  nct_id : String
  brief_title : Option String := none
  official_title : Option String := none
  sponsor_name : Option String := none
  status : Option String := none
  phase : Option String := none
  study_type : Option String := none
  enrollment : Option Nat := none
  start_date : Option Nat := none
  completion_date : Option Nat := none
  last_update_date : Option Nat := none
  conditions : Conditions := {}
  outcome_measures : OutcomeMeasures := {}
  eligibility_criteria : EligibilityCriteria := {}
  biospec_retention : Option String := none
  biospec_description : Option String := none
  design_info : DesignInfo := {}
deriving DecidableEq, Repr

/-- the evaluation of `design_module.get('phases', [None])[0]`: an absent
`phases` key yields `None` (default `[None]`, index 0); a present, empty
list raises `IndexError` (`none` here), which the surrounding `except`
clause turns into a skipped record; a nonempty list yields its head. -/
def phaseOf : Option (List String) → Option (Option String)
  | none => some none
  | some [] => none
  | some (p :: _) => some (some p)

/-- one iteration of the loop body of `process_trials`: builds the
`trial_data` dictionary field by field; the `IndexError` from an empty
`phases` list is caught by the `except` clause and drops the record, and a
missing or empty `nct_id` fails the required-field validation and drops the
record. -/
def processTrial (study : Study) : Option TrialRecord :=
  match phaseOf study.design.phases with
  | none => none
  | some ph =>
    if study.identification.nctId.getD "" = "" then none
    else
      some {
        nct_id := study.identification.nctId.getD ""
        brief_title := study.identification.briefTitle
        official_title := study.identification.officialTitle
        sponsor_name := study.sponsor.leadSponsorName
        status := study.status.overallStatus
        phase := ph
        study_type := study.studyType
        enrollment := study.status.enrollmentCount
        start_date := study.status.startDate
        completion_date := study.status.completionDate
        last_update_date := study.status.lastUpdatePostDate
        conditions := {
          conditions := study.conditionsModule.conditions
          keywords := study.conditionsModule.keywords }
        outcome_measures := {
          primary := study.outcomes.primaryOutcomes
          secondary := study.outcomes.secondaryOutcomes }
        eligibility_criteria := {
          criteria := study.eligibility.eligibilityCriteria
          gender := study.eligibility.gender
          min_age := study.eligibility.minimumAge
          max_age := study.eligibility.maximumAge
          healthy_volunteers := study.eligibility.healthyVolunteers }
        biospec_retention := study.biospec.biospecRetention
        biospec_description := study.biospec.biospecDescription
        design_info := {
          allocation := study.design.designInfo.allocation
          intervention_model := study.design.designInfo.interventionModel
          primary_purpose := study.design.designInfo.primaryPurpose
          masking := study.design.designInfo.masking
          who_masked := study.design.designInfo.whoMasked } }

/-- the full `process_trials` function: each study is normalized in turn and
dropped studies are skipped with `continue`, leaving the siblings alone. -/
def process_trials (studies : List Study) : List TrialRecord :=
  studies.filterMap processTrial

/-- one response of the remote registry endpoint, as observed by the fetch
loop: either a decoded page (its `studies` list and optional
`nextPageToken`), or a request/decode failure (`requests` exception or
`json.JSONDecodeError`). -/
inductive FetchResult where
  | page (studies : List Study) (nextPageToken : Option String)
  | failure
deriving DecidableEq, Repr

/-- the observable outcome of `fetch_recent_updates`: the accumulated
normalized records it returns, plus two ghost observations of the run used
to state the claims — how many times the endpoint was called, and whether
the loop exited through an exception handler. -/
structure FetchOutcome where
  records : List TrialRecord
  calls : Nat
  errored : Bool
deriving DecidableEq, Repr

/-- the `while True` pagination loop of `fetch_recent_updates` over a
scripted list of responses: a failure is logged and breaks the loop
(returning what was accumulated); an empty `studies` list breaks the loop;
otherwise the page is normalized and appended and the loop continues only
when a `nextPageToken` is present. Exhausting the script is modelled as a
transport failure on the next request. -/
def fetchLoop : List FetchResult → List TrialRecord → Nat → FetchOutcome
  | [], acc, n => ⟨acc, n + 1, true⟩
  | FetchResult.failure :: _, acc, n => ⟨acc, n + 1, true⟩
  | FetchResult.page studies tok :: rest, acc, n =>
    if studies.isEmpty then ⟨acc, n + 1, false⟩
    else
      match tok with
      | none => ⟨acc ++ process_trials studies, n + 1, false⟩
      | some _ => fetchLoop rest (acc ++ process_trials studies) (n + 1)

/-- the `fetch_recent_updates` entry: the loop starts with no token and an
empty accumulator. -/
def fetchRun (pages : List FetchResult) : FetchOutcome :=
  fetchLoop pages [] 0

/-- the record found in the store for a given `nct_id`, mirroring
`SELECT 1 FROM consolidated_clinical_trials WHERE nct_id = %s`. -/
def findRecord (store : List TrialRecord) (nid : String) : Option TrialRecord :=
  store.find? (fun r => r.nct_id = nid)

/-- the `ON CONFLICT (nct_id) DO UPDATE SET` clause: exactly `status`,
`enrollment`, `completion_date`, `last_update_date`, `conditions`,
`outcome_measures`, `eligibility_criteria`, `biospec_retention`,
`biospec_description` and `design_info` are taken from the incoming row;
every other column of the conflicting row keeps its stored value. -/
def applyUpsert (old t : TrialRecord) : TrialRecord :=
  { old with
    status := t.status
    enrollment := t.enrollment
    completion_date := t.completion_date
    last_update_date := t.last_update_date
    conditions := t.conditions
    outcome_measures := t.outcome_measures
    eligibility_criteria := t.eligibility_criteria
    biospec_retention := t.biospec_retention
    biospec_description := t.biospec_description
    design_info := t.design_info }

/-- the effect of one `INSERT ... ON CONFLICT (nct_id) DO UPDATE` statement
on the (transaction-local) table state. -/
def upsertRecord (store : List TrialRecord) (t : TrialRecord) : List TrialRecord :=
  if store.any (fun r => r.nct_id = t.nct_id) then
    store.map (fun r => if r.nct_id = t.nct_id then applyUpsert r t else r)
  else
    store ++ [t]

/-- the in-flight state of the single transaction that `update_database`
runs the whole batch in: the uncommitted table contents, the two Python
counters, and whether a failed statement has already aborted the
transaction (after which every further statement fails until the
transaction block ends). -/
structure TxState where
  working : List TrialRecord
  updated : Nat
  inserted : Nat
  aborted : Bool
deriving DecidableEq, Repr

/-- one iteration of the loop body of `update_database` for one trial.
`failing t = true` models the store raising on this trial's statement
(constraint violation, transient fault); the `except` clause logs and
continues. In an aborted transaction the initial existence `SELECT` itself
raises, so the iteration changes nothing. -/
def txStep (failing : TrialRecord → Bool) (st : TxState) (t : TrialRecord) : TxState :=
  if st.aborted then st
  else if failing t then { st with aborted := true }
  else
    let ex := st.working.any (fun r => r.nct_id = t.nct_id)
    let w := upsertRecord st.working t
    if ex then { st with working := w, updated := st.updated + 1 }
    else { st with working := w, inserted := st.inserted + 1 }

/-- what `update_database` leaves behind: the committed store and the two
counts it returns. -/
structure PersistResult where
  store : List TrialRecord
  updated : Nat
  inserted : Nat
deriving DecidableEq, Repr

/-- the `update_database` function: every trial is processed inside one
transaction and a single `conn.commit()` follows the loop; COMMIT on an
aborted transaction is a rollback, so in that case the store is left as it
was. The returned counts are the Python counters either way. -/
def update_database (failing : TrialRecord → Bool) (store : List TrialRecord)
    (trials : List TrialRecord) : PersistResult :=
  let st := trials.foldl (txStep failing) ⟨store, 0, 0, false⟩
  { store := if st.aborted then store else st.working
    updated := st.updated
    inserted := st.inserted }

/-- a persistence scenario in which no statement fails. -/
def noFail : TrialRecord → Bool := fun _ => false

/-- the watermark computation of `main`:
`SELECT MAX(last_update_date) FROM consolidated_clinical_trials` (SQL `MAX`
ignores NULLs and is NULL on an empty table) followed by
`cur.fetchone()[0] or (datetime.now() - timedelta(days=7))`. -/
def computeWatermark (now : Nat) (store : List TrialRecord) : Nat :=
  match (store.filterMap (fun r => r.last_update_date)).max? with
  | none => now - 7
  | some m => m

/-- the observable outcome of one `main` run, including ghost observations
(number of endpoint calls, whether the fetch loop errored) needed to state
the claims. -/
structure RunResult where
  records : List TrialRecord
  store : List TrialRecord
  inserted : Nat
  updated : Nat
  recompute_calls : Nat
  fetch_calls : Nat
  fetch_errored : Bool
deriving DecidableEq, Repr

/-- the body of `main` after the watermark has been computed: fetch, and if
any trials came back, persist them and call `perform_weekly_update()`;
otherwise do neither. -/
def mainRun (failing : TrialRecord → Bool) (pages : List FetchResult)
    (store0 : List TrialRecord) : RunResult :=
  let f := fetchRun pages
  if f.records.isEmpty then
    { records := f.records, store := store0, inserted := 0, updated := 0
      recompute_calls := 0, fetch_calls := f.calls, fetch_errored := f.errored }
  else
    let db := update_database failing store0 f.records
    { records := f.records, store := db.store, inserted := db.inserted
      updated := db.updated, recompute_calls := 1, fetch_calls := f.calls
      fetch_errored := f.errored }

/-- the server-side filter of the query
`AREA[LastUpdatePostDate]RANGE[{last_update_date},MAX]`: the lower bound is
inclusive, and a record with no last-update date does not match the range. -/
def matchesRange (w : Nat) (s : Study) : Bool :=
  match s.status.lastUpdatePostDate with
  | some d => w ≤ d
  | none => false

/-- the registry serving a fixed source corpus for a given watermark: one
page holding every matching study, with no continuation token (the page
size of 1000 is not reached in any property considered here). -/
def serverPage (source : List Study) (w : Nat) : FetchResult :=
  FetchResult.page (source.filter (matchesRange w)) none

/-- one complete `main` run against a fixed source corpus: compute the
watermark from the store (with `now` fixed for the default), fetch the
matching studies, persist, and trigger the recompute when applicable. -/
def runOnce (failing : TrialRecord → Bool) (now : Nat) (source : List Study)
    (store : List TrialRecord) : RunResult :=
  mainRun failing [serverPage source (computeWatermark now store)] store

/-- the `nct_id` the normalizer would assign to a payload (`None` reads as
the empty string, which fails the required-field validation). -/
def idOf (s : Study) : String :=
  s.identification.nctId.getD ""

/-- the last-update date carried by a payload. -/
def dateOf (s : Study) : Option Nat :=
  s.status.lastUpdatePostDate

/-- the `RANGE[w,MAX]` filter expressed on a normalized record. -/
def matchesRangeRec (w : Nat) (r : TrialRecord) : Bool :=
  match r.last_update_date with
  | some d => w ≤ d
  | none => false

/-- a payload the normalizer accepts: it has a usable `nct_id`, its phase
list is not present-but-empty, and it carries a last-update date. -/
def goodStudy (s : Study) : Prop :=
  idOf s ≠ "" ∧ s.design.phases ≠ some [] ∧ (dateOf s).isSome

instance (s : Study) : Decidable (goodStudy s) := by
  unfold goodStudy; infer_instance

/-- a minimal raw payload with the given id and last-update date. -/
def mkStudy (nid : String) (d : Nat) : Study :=
  { identification := { nctId := some nid }
    status := { lastUpdatePostDate := some d } }

/-- study NCT001 of the pagination scenario, last updated 2024-01-10. -/
def study001 : Study := mkStudy "NCT001" 20240110

/-- study NCT002 of the pagination scenario, last updated 2024-01-12. -/
def study002 : Study := mkStudy "NCT002" 20240112

/-- study NCT003 of the pagination scenario, last updated 2024-01-15. -/
def study003 : Study := mkStudy "NCT003" 20240115

/-- the two-page scenario: page 1 holds NCT001 and NCT002 and carries
continuation token T1; page 2 holds NCT003 and carries no token. -/
def twoPageScenario : List FetchResult :=
  [FetchResult.page [study001, study002] (some "T1"),
   FetchResult.page [study003] none]

/-- a scenario whose first page succeeds (with a continuation token) and
whose second request fails at the transport/decode level. -/
def errorScenario : List FetchResult :=
  [FetchResult.page [study001] (some "T1"), FetchResult.failure]

/-- a payload with a valid id whose `phases` list is present but empty. -/
def emptyPhasesStudy : Study :=
  { identification := { nctId := some "NCT200" }
    status := { lastUpdatePostDate := some 20240110 }
    design := { phases := some [] } }

/-- a payload with a valid id and the nonempty phase list [PHASE2]. -/
def phasedStudy : Study :=
  { identification := { nctId := some "NCT201" }
    status := { lastUpdatePostDate := some 20240111 }
    design := { phases := some ["PHASE2"] } }

/-- a payload carrying data but no `nct_id`. -/
def noIdStudy : Study :=
  { status := { overallStatus := some "RECRUITING", lastUpdatePostDate := some 20240112 } }

/-- a minimal normalized record with the given id. -/
def mkRec (nid : String) : TrialRecord :=
  { nct_id := nid }

/-- a batch of 10 normalized records NCT001 .. NCT010. -/
def batchOfTen : List TrialRecord :=
  ["NCT001", "NCT002", "NCT003", "NCT004", "NCT005",
   "NCT006", "NCT007", "NCT008", "NCT009", "NCT010"].map mkRec

/-- a store fault that hits exactly the statement for record NCT005. -/
def failOnFive : TrialRecord → Bool := fun t => t.nct_id = "NCT005"

/-- the single-study source corpus used to exercise two consecutive runs
against an unchanged source. -/
def oneStudySource : List Study := [mkStudy "NCT001" 20240110]

/-- the first run against `oneStudySource`, from an empty store, with `now`
equal to 2024-01-17 so the default lookback covers the study. -/
def firstRunC1 : RunResult := runOnce noFail 20240117 oneStudySource []

/-- the second run against the unchanged `oneStudySource`, from the store
the first run left behind. -/
def secondRunC1 : RunResult := runOnce noFail 20240117 oneStudySource firstRunC1.store

/-- a stored record for NCT001 with populated identification fields. -/
def storedRec : TrialRecord :=
  { nct_id := "NCT001"
    brief_title := some "Old brief title"
    official_title := some "Old official title"
    sponsor_name := some "Acme Pharma"
    status := some "RECRUITING"
    phase := some "PHASE2"
    enrollment := some 100
    last_update_date := some 20240110 }

/-- an incoming row for the same `nct_id` with a newer `last_update_date`
and fresh mutable data (its identification fields differ on purpose). -/
def incomingRec : TrialRecord :=
  { nct_id := "NCT001"
    brief_title := some "New brief title"
    official_title := some "New official title"
    sponsor_name := some "Other Sponsor"
    status := some "COMPLETED"
    enrollment := some 120
    completion_date := some 20240601
    last_update_date := some 20240120 }

/-- a concrete store of three dated records. -/
def threeRecStore : List TrialRecord :=
  [{ nct_id := "NCT001", last_update_date := some 20240110 },
   { nct_id := "NCT002", last_update_date := some 20240112 },
   { nct_id := "NCT003", last_update_date := some 20240115 }]

/-! Helper lemmas about the Normalizer. -/

theorem processTrial_of_noId (s : Study) (h : idOf s = "") : processTrial s = none := by
  unfold idOf at h
  unfold processTrial
  cases hp : phaseOf s.design.phases with
  | none => rfl
  | some ph => simp [h]

theorem processTrial_of_good (s : Study) (h : goodStudy s) :
    ∃ r, processTrial s = some r ∧ r.nct_id = idOf s ∧ r.last_update_date = dateOf s := by
  obtain ⟨h1, h2, h3⟩ := h
  unfold idOf at h1
  unfold processTrial
  cases hp : s.design.phases with
  | none =>
    simp only [phaseOf]
    rw [if_neg h1]
    exact ⟨_, rfl, rfl, rfl⟩
  | some l =>
    cases l with
    | nil => exact absurd hp h2
    | cons p ps =>
      simp only [phaseOf]
      rw [if_neg h1]
      exact ⟨_, rfl, rfl, rfl⟩

/-! Helper lemmas about the Persister. -/

theorem find?_map_upsert (t : TrialRecord) (store : List TrialRecord) (old : TrialRecord)
    (h : store.find? (fun r => r.nct_id = t.nct_id) = some old) :
    (store.map (fun r => if r.nct_id = t.nct_id then applyUpsert r t else r)).find?
      (fun r => r.nct_id = t.nct_id) = some (applyUpsert old t) := by
  induction store with
  | nil => simp at h
  | cons r rs ih =>
    by_cases hr : r.nct_id = t.nct_id
    · rw [List.find?_cons_of_pos _ (by simp [hr])] at h
      injection h with h
      subst h
      simp only [List.map_cons, if_pos hr]
      exact List.find?_cons_of_pos _ (by simp [applyUpsert, hr])
    · rw [List.find?_cons_of_neg _ (by simp [hr])] at h
      simp only [List.map_cons, if_neg hr]
      rw [List.find?_cons_of_neg _ (by simp [hr])]
      exact ih h

theorem findRecord_upsert (store : List TrialRecord) (t old : TrialRecord)
    (h : findRecord store t.nct_id = some old) :
    findRecord (upsertRecord store t) t.nct_id = some (applyUpsert old t) := by
  unfold findRecord at h ⊢
  have hp := List.find?_some h
  have hany : store.any (fun r => r.nct_id = t.nct_id) = true := by
    exact List.any_eq_true.mpr ⟨old, List.mem_of_find?_eq_some h, hp⟩
  unfold upsertRecord
  rw [if_pos hany]
  exact find?_map_upsert t store old h

/-- C10: a page whose `studies` list is empty terminates pagination at once,
even when it carries a continuation token: the loop ends after that single
call and returns the records accumulated so far. -/
theorem emptyPage_terminates_pagination (tok : String) (rest : List FetchResult)
    (acc : List TrialRecord) (n : Nat) :
    fetchLoop (FetchResult.page [] (some tok) :: rest) acc n =
      { records := acc, calls := n + 1, errored := false } := rfl

/-- C8: in the two-page scenario (NCT001 and NCT002 with token T1, then
NCT003 with no token) the run performs exactly 3 inserts, the endpoint is
called exactly twice, and the watermark computed from the resulting store
is 2024-01-15 whatever `now` is. -/
theorem twoPage_scenario_counts :
    (mainRun noFail twoPageScenario []).inserted = 3 ∧
    (mainRun noFail twoPageScenario []).fetch_calls = 2 ∧
    ∀ now : Nat, computeWatermark now (mainRun noFail twoPageScenario []).store = 20240115 := by
  refine ⟨by decide, by decide, fun now => ?_⟩
  unfold computeWatermark
  have h : (((mainRun noFail twoPageScenario []).store).filterMap
      (fun r => r.last_update_date)).max? = some 20240115 := by decide
  rw [h]

/-- C4, counterexample: a payload with a valid `nct_id` whose phase list is
present but empty is dropped by the normalizer (the `[ ... ][0]` access
raises `IndexError`), instead of yielding a record with a null phase. -/
theorem emptyPhases_payload_dropped : processTrial emptyPhasesStudy = none := by decide

/-- C4, amended: for a payload that passes the `nct_id` validation, the
normalized `phase` is the first entry of the phase list when that list is
nonempty and null when the `phases` key is absent; a present-but-empty
phase list drops the whole payload. -/
theorem phase_is_head_or_dropped (s : Study) (h : idOf s ≠ "") :
    (processTrial s).map TrialRecord.phase =
      match s.design.phases with
      | some [] => none
      | none => some none
      | some (p :: _) => some (some p) := by
  unfold idOf at h
  unfold processTrial
  cases hp : s.design.phases with
  | none => simp [phaseOf, h]
  | some l =>
    cases l with
    | nil => simp [phaseOf]
    | cons p ps => simp [phaseOf, h]

/-- witness for C4: the amended statement evaluated on a concrete payload
whose phase list is [PHASE2]. -/
theorem phase_is_head_or_dropped_witness :
    (processTrial phasedStudy).map TrialRecord.phase = some (some "PHASE2") :=
  phase_is_head_or_dropped phasedStudy (by decide)

/-- C7: a payload lacking an `nct_id` is dropped by the normalizer and its
presence leaves the processing of its sibling payloads unchanged. -/
theorem noId_payload_dropped (pre post : List Study) (s : Study) (h : idOf s = "") :
    processTrial s = none ∧
    process_trials (pre ++ s :: post) = process_trials pre ++ process_trials post := by
  have hs := processTrial_of_noId s h
  refine ⟨hs, ?_⟩
  simp [process_trials, List.filterMap_append, List.filterMap_cons, hs]

/-- witness for C7: a concrete id-less payload sitting between two valid
payloads is dropped and leaves its siblings alone. -/
theorem noId_payload_dropped_witness :
    processTrial noIdStudy = none ∧
    process_trials ([study001] ++ noIdStudy :: [study002]) =
      process_trials [study001] ++ process_trials [study002] :=
  noId_payload_dropped [study001] [study002] noIdStudy (by decide)

/-- C2: evaluation of the Persister at the spec's own failing input — a
batch of 10 fresh records where the statement for NCT005 raises. The whole
batch shares one transaction with a single final COMMIT, so the failure
aborts the transaction: NCT006..NCT010 fail too, only NCT001..NCT004 are
counted, and the COMMIT rolls back, leaving the store empty instead of
holding the other 9 records. -/
theorem midBatch_failure_poisons_transaction :
    (update_database failOnFive [] batchOfTen).inserted = 4 ∧
    (update_database failOnFive [] batchOfTen).updated = 0 ∧
    (update_database failOnFive [] batchOfTen).store = [] := by decide

/-- C3, counterexample: a run whose second page fetch fails at the
transport level is not ended by a surfaced terminal error — the record
fetched before the failure is persisted after it and the recompute
collaborator is still invoked. -/
theorem errored_run_persists_and_recomputes :
    (mainRun noFail errorScenario []).fetch_errored = true ∧
    (mainRun noFail errorScenario []).inserted = 1 ∧
    (mainRun noFail errorScenario []).recompute_calls = 1 := by decide

/-- C9, counterexample: on a run ended by a fatal Fetcher error that had
already yielded one record, the recompute collaborator is invoked anyway. -/
theorem recompute_despite_fetch_error :
    (mainRun noFail errorScenario []).fetch_errored = true ∧
    (mainRun noFail errorScenario []).recompute_calls = 1 := by decide

/-- C9, amended: the recompute collaborator is invoked exactly once on a
run iff the fetch returned at least one normalized record, irrespective of
whether the fetch loop ended through an error; with zero records it is not
invoked. -/
theorem recompute_iff_nonempty_records (failing : TrialRecord → Bool)
    (pages : List FetchResult) (store0 : List TrialRecord) :
    (mainRun failing pages store0).recompute_calls =
      if (fetchRun pages).records.isEmpty then 0 else 1 := by
  unfold mainRun
  cases h : (fetchRun pages).records.isEmpty <;> simp [h]

/-- C1, counterexample: against the unchanged one-study source, the second
run does not report zero inserts and zero updates — the inclusive fetch
lower bound re-fetches the record sitting at the watermark and counts an
update for it. -/
theorem second_run_not_silent :
    ¬ ((secondRunC1).inserted = 0 ∧ (secondRunC1).updated = 0) := by decide

/-- C5: the computed watermark is `now` minus the 7-day lookback when the
store is empty, and otherwise (for a store whose records all carry a
last-update date) it is the maximum `last_update_date` over the store:
attained by some record and an upper bound for all of them. -/
theorem watermark_is_max_or_default (now : Nat) (store : List TrialRecord)
    (hdates : ∀ r ∈ store, r.last_update_date.isSome) :
    (store = [] → computeWatermark now store = now - 7) ∧
    (store ≠ [] →
      (∃ r ∈ store, r.last_update_date = some (computeWatermark now store)) ∧
      ∀ r ∈ store, ∀ d, r.last_update_date = some d → d ≤ computeWatermark now store) := by
  constructor
  · intro h
    subst h
    rfl
  · intro hne
    have hne2 : store.filterMap (fun r => r.last_update_date) ≠ [] := by
      obtain ⟨r0, rs, hst⟩ := List.exists_cons_of_ne_nil hne
      have h0 : r0 ∈ store := by rw [hst]; exact List.mem_cons_self r0 rs
      obtain ⟨d0, hd0⟩ := Option.isSome_iff_exists.mp (hdates r0 h0)
      have hmem : d0 ∈ store.filterMap (fun r => r.last_update_date) :=
        List.mem_filterMap.mpr ⟨r0, h0, hd0⟩
      intro hnil
      rw [hnil] at hmem
      exact absurd hmem (List.not_mem_nil d0)
    cases hm : (store.filterMap (fun r => r.last_update_date)).max? with
    | none => exact absurd (List.max?_eq_none_iff.mp hm) hne2
    | some M =>
      have hMspec := List.max?_eq_some_iff'.mp hm
      have hw : computeWatermark now store = M := by
        unfold computeWatermark
        rw [hm]
      constructor
      · obtain ⟨rM, hrM, hdM⟩ := List.mem_filterMap.mp hMspec.1
        exact ⟨rM, hrM, by rw [hw]; exact hdM⟩
      · intro r hr d hd
        rw [hw]
        exact hMspec.2 d (List.mem_filterMap.mpr ⟨r, hr, hd⟩)

/-- witness for C5: the empty-store default evaluated at `now` 2024-01-17
equals 2024-01-10. -/
theorem watermark_is_max_or_default_witness :
    computeWatermark 20240117 ([] : List TrialRecord) = 20240110 :=
  (watermark_is_max_or_default 20240117 [] (by simp)).1 rfl

/-- C6: upserting an incoming row whose `nct_id` is already stored leaves a
record that takes exactly the ten mutable fields from the incoming row and
keeps every other field of the stored record, in particular `brief_title`,
`official_title` and `sponsor_name`. -/
theorem upsert_updates_exactly_mutable_fields (store : List TrialRecord)
    (t old : TrialRecord) (h : findRecord store t.nct_id = some old) :
    findRecord (upsertRecord store t) t.nct_id = some
      { old with
        status := t.status
        enrollment := t.enrollment
        completion_date := t.completion_date
        last_update_date := t.last_update_date
        conditions := t.conditions
        outcome_measures := t.outcome_measures
        eligibility_criteria := t.eligibility_criteria
        biospec_retention := t.biospec_retention
        biospec_description := t.biospec_description
        design_info := t.design_info } :=
  findRecord_upsert store t old h

/-- witness for C6: the concrete stored record for NCT001 after the
concrete incoming row is applied — mutable fields are the incoming ones,
titles, sponsor and phase are the stored ones. -/
theorem upsert_updates_exactly_mutable_fields_witness :
    findRecord (upsertRecord [storedRec] incomingRec) incomingRec.nct_id = some
      { nct_id := "NCT001"
        brief_title := some "Old brief title"
        official_title := some "Old official title"
        sponsor_name := some "Acme Pharma"
        status := some "COMPLETED"
        phase := some "PHASE2"
        enrollment := some 120
        completion_date := some 20240601
        last_update_date := some 20240120 } :=
  upsert_updates_exactly_mutable_fields [storedRec] incomingRec storedRec (by decide)

/-- C3, amended: a transport/decode failure ends the pagination loop at
once with the records accumulated so far, and is not surfaced: whatever the
fetch returned — including the partial result of an errored run — is then
persisted as on any other run, and the recompute trigger still fires when
at least one record came back. -/
theorem fetch_error_silently_ends_run (rest : List FetchResult)
    (acc : List TrialRecord) (n : Nat) (failing : TrialRecord → Bool)
    (store0 : List TrialRecord) (pages : List FetchResult)
    (h : (fetchRun pages).records ≠ []) :
    fetchLoop (FetchResult.failure :: rest) acc n =
      { records := acc, calls := n + 1, errored := true } ∧
    (mainRun failing pages store0).inserted =
      (update_database failing store0 (fetchRun pages).records).inserted ∧
    (mainRun failing pages store0).updated =
      (update_database failing store0 (fetchRun pages).records).updated ∧
    (mainRun failing pages store0).recompute_calls = 1 := by
  have hempty : (fetchRun pages).records.isEmpty = false := by
    cases hr : (fetchRun pages).records with
    | nil => exact absurd hr h
    | cons a l => rfl
  refine ⟨rfl, ?_, ?_, ?_⟩ <;> simp [mainRun, hempty]

/-- witness for C3: the amended statement evaluated on the concrete errored
scenario (one good page, then a transport failure). -/
theorem fetch_error_silently_ends_run_witness :
    fetchLoop [FetchResult.failure] [] 0 =
      { records := [], calls := 1, errored := true } ∧
    (mainRun noFail errorScenario []).inserted =
      (update_database noFail [] (fetchRun errorScenario).records).inserted ∧
    (mainRun noFail errorScenario []).updated =
      (update_database noFail [] (fetchRun errorScenario).records).updated ∧
    (mainRun noFail errorScenario []).recompute_calls = 1 :=
  fetch_error_silently_ends_run [] [] 0 noFail [] errorScenario (by decide)

/-! Helper lemmas for reasoning about whole runs. -/

theorem process_trials_map_of_good (source : List Study)
    (h : ∀ s ∈ source, goodStudy s) :
    (process_trials source).map (fun r => r.nct_id) = source.map idOf ∧
    (process_trials source).map (fun r => r.last_update_date) = source.map dateOf := by
  induction source with
  | nil => exact ⟨rfl, rfl⟩
  | cons s ss ih =>
    obtain ⟨r, hr, hid, hdate⟩ := processTrial_of_good s (h s (List.mem_cons_self s ss))
    obtain ⟨ih1, ih2⟩ := ih (fun x hx => h x (List.mem_cons_of_mem s hx))
    have hcons : process_trials (s :: ss) = r :: process_trials ss := by
      unfold process_trials
      rw [List.filterMap_cons, hr]
    refine ⟨?_, ?_⟩ <;> rw [hcons] <;> simp [hid, hdate, ih1, ih2]

theorem process_trials_filter_of_good (w : Nat) (source : List Study)
    (h : ∀ s ∈ source, goodStudy s) :
    process_trials (source.filter (matchesRange w)) =
      (process_trials source).filter (matchesRangeRec w) := by
  induction source with
  | nil => rfl
  | cons s ss ih =>
    obtain ⟨r, hr, hid, hdate⟩ := processTrial_of_good s (h s (List.mem_cons_self s ss))
    have ih' := ih (fun x hx => h x (List.mem_cons_of_mem s hx))
    have hcons : process_trials (s :: ss) = r :: process_trials ss := by
      unfold process_trials
      rw [List.filterMap_cons, hr]
    unfold dateOf at hdate
    have heq : matchesRange w s = matchesRangeRec w r := by
      unfold matchesRange matchesRangeRec
      rw [hdate]
    rw [hcons, List.filter_cons, List.filter_cons, heq]
    by_cases hb : matchesRangeRec w r = true
    · rw [if_pos hb, if_pos hb]
      have hcons2 : process_trials (s :: ss.filter (matchesRange w)) =
          r :: process_trials (ss.filter (matchesRange w)) := by
        unfold process_trials
        rw [List.filterMap_cons, hr]
      rw [hcons2, ih']
    · rw [if_neg hb, if_neg hb]
      exact ih'

theorem txFold_all_new (ts : List TrialRecord) (st : TxState)
    (hab : st.aborted = false)
    (hnew : ∀ t ∈ ts, ∀ r ∈ st.working, ¬ r.nct_id = t.nct_id)
    (hnd : (ts.map (fun t => t.nct_id)).Nodup) :
    ts.foldl (txStep noFail) st =
      { working := st.working ++ ts, updated := st.updated,
        inserted := st.inserted + ts.length, aborted := false } := by
  induction ts generalizing st with
  | nil =>
    simp only [List.foldl_nil, List.append_nil, List.length_nil, Nat.add_zero]
    cases st with
    | mk w u i a =>
      simp only at hab
      rw [hab]
  | cons t ts ih =>
    have hex : st.working.any (fun r => r.nct_id = t.nct_id) = false := by
      refine List.any_eq_false.mpr ?_
      intro r hrm
      simpa using hnew t (List.mem_cons_self t ts) r hrm
    have hstep : txStep noFail st t =
        { working := st.working ++ [t], updated := st.updated,
          inserted := st.inserted + 1, aborted := false } := by
      unfold txStep noFail upsertRecord
      rw [hab, hex]
      simp
    rw [List.foldl_cons, hstep]
    have hnew' : ∀ t' ∈ ts, ∀ r ∈ st.working ++ [t], ¬ r.nct_id = t'.nct_id := by
      intro t' ht' r hrm
      rcases List.mem_append.mp hrm with hrw | hrt
      · exact hnew t' (List.mem_cons_of_mem t ht') r hrw
      · have hrteq : r = t := by simpa using hrt
        subst hrteq
        have hnin : r.nct_id ∉ ts.map (fun x => x.nct_id) := (List.nodup_cons.mp hnd).1
        intro hcontra
        exact hnin (hcontra ▸ List.mem_map_of_mem (fun x => x.nct_id) ht')
    rw [ih _ rfl hnew' (List.nodup_cons.mp hnd).2]
    simp [List.append_assoc]
    omega

theorem txFold_all_existing (ts : List TrialRecord) (st : TxState)
    (hab : st.aborted = false)
    (hex : ∀ t ∈ ts, t.nct_id ∈ st.working.map (fun r => r.nct_id)) :
    (ts.foldl (txStep noFail) st).updated = st.updated + ts.length ∧
    (ts.foldl (txStep noFail) st).inserted = st.inserted ∧
    (ts.foldl (txStep noFail) st).aborted = false := by
  induction ts generalizing st with
  | nil => exact ⟨rfl, rfl, hab⟩
  | cons t ts ih =>
    have hany : st.working.any (fun r => r.nct_id = t.nct_id) = true := by
      obtain ⟨r, hrm, hrid⟩ := List.mem_map.mp (hex t (List.mem_cons_self t ts))
      exact List.any_eq_true.mpr ⟨r, hrm, by simp [hrid]⟩
    have hids : (upsertRecord st.working t).map (fun r => r.nct_id) =
        st.working.map (fun r => r.nct_id) := by
      unfold upsertRecord
      rw [if_pos hany, List.map_map]
      refine List.map_congr_left ?_
      intro r hrm
      by_cases hcase : r.nct_id = t.nct_id
      · simp [Function.comp, hcase, applyUpsert]
      · simp [Function.comp, hcase]
    have hstep : txStep noFail st t =
        { working := upsertRecord st.working t, updated := st.updated + 1,
          inserted := st.inserted, aborted := false } := by
      unfold txStep noFail
      rw [hab]
      simp [hany]
    rw [List.foldl_cons, hstep]
    have hex' : ∀ t' ∈ ts, t'.nct_id ∈ (upsertRecord st.working t).map (fun r => r.nct_id) := by
      intro t' ht'
      rw [hids]
      exact hex t' (List.mem_cons_of_mem t ht')
    obtain ⟨ih1, ih2, ih3⟩ :=
      ih ⟨upsertRecord st.working t, st.updated + 1, st.inserted, false⟩ rfl hex'
    refine ⟨?_, ih2, ih3⟩
    rw [ih1]
    simp only [List.length_cons]
    omega

/-- C1, amended: against a source that does not change between two
consecutive runs (well-formed: distinct usable ids, no present-but-empty
phase lists, dated records inside the first run's lookback window), the
second run performs zero inserts — but not zero updates: the inclusive
fetch lower bound re-fetches every record sitting at the watermark, and the
second run counts an update for each of them. -/
theorem second_run_zero_inserts_some_updates (now : Nat) (source : List Study)
    (hgood : ∀ s ∈ source, goodStudy s)
    (hnd : (source.map idOf).Nodup)
    (hwin : ∀ s ∈ source, now - 7 ≤ (dateOf s).getD 0)
    (hne : source ≠ []) :
    (runOnce noFail now source (runOnce noFail now source []).store).inserted = 0 ∧
    0 < (runOnce noFail now source (runOnce noFail now source []).store).updated := by
  obtain ⟨hmapid, hmapdate⟩ := process_trials_map_of_good source hgood
  -- the first run fetches the whole source
  have hfilter0 : source.filter (matchesRange (now - 7)) = source := by
    refine List.filter_eq_self.mpr ?_
    intro s hs
    obtain ⟨d, hd⟩ := Option.isSome_iff_exists.mp (hgood s hs).2.2
    have hle := hwin s hs
    rw [hd] at hle
    simp only [Option.getD_some] at hle
    unfold dateOf at hd
    unfold matchesRange
    rw [hd]
    simpa using hle
  have hptsne : process_trials source ≠ [] := by
    intro h0
    apply hne
    have hlen := congrArg List.length hmapid
    rw [h0] at hlen
    simp only [List.map_nil, List.length_nil, List.length_map] at hlen
    exact List.length_eq_zero.mp hlen.symm
  have hptsEmpty : (process_trials source).isEmpty = false := by
    cases hc : process_trials source with
    | nil => exact absurd hc hptsne
    | cons a l => rfl
  have hsrcEmpty : source.isEmpty = false := by
    cases hc : source with
    | nil => exact absurd hc hne
    | cons a l => rfl
  have hfetch1 : fetchRun [serverPage source (now - 7)] =
      { records := process_trials source, calls := 1, errored := false } := by
    unfold fetchRun serverPage
    rw [hfilter0]
    simp [fetchLoop, hsrcEmpty]
  have hdb1 : update_database noFail [] (process_trials source) =
      { store := process_trials source, updated := 0,
        inserted := (process_trials source).length } := by
    unfold update_database
    rw [txFold_all_new (process_trials source) ⟨[], 0, 0, false⟩ rfl
      (by intro t ht r hr; simp at hr) (by rw [hmapid]; exact hnd)]
    simp
  have hrun1 : (runOnce noFail now source []).store = process_trials source := by
    unfold runOnce
    have hw0 : computeWatermark now ([] : List TrialRecord) = now - 7 := rfl
    rw [hw0]
    unfold mainRun
    rw [hfetch1]
    simp [hptsEmpty, hdb1]
  -- the second run's watermark is the maximum stored date
  have hDne : (process_trials source).filterMap (fun r => r.last_update_date) ≠ [] := by
    obtain ⟨s0, ss, hst⟩ := List.exists_cons_of_ne_nil hne
    have hs0 : s0 ∈ source := by rw [hst]; exact List.mem_cons_self s0 ss
    obtain ⟨d0, hd0⟩ := Option.isSome_iff_exists.mp (hgood s0 hs0).2.2
    have hmm : dateOf s0 ∈ source.map dateOf := List.mem_map_of_mem dateOf hs0
    rw [← hmapdate] at hmm
    obtain ⟨r0, hr0mem, hr0⟩ := List.mem_map.mp hmm
    have : d0 ∈ (process_trials source).filterMap (fun r => r.last_update_date) := by
      refine List.mem_filterMap.mpr ⟨r0, hr0mem, ?_⟩
      rw [hr0, hd0]
    intro hnil
    rw [hnil] at this
    exact absurd this (List.not_mem_nil d0)
  cases hm : ((process_trials source).filterMap (fun r => r.last_update_date)).max? with
  | none => exact absurd (List.max?_eq_none_iff.mp hm) hDne
  | some M =>
    have hMspec := List.max?_eq_some_iff'.mp hm
    have hw2 : computeWatermark now (process_trials source) = M := by
      unfold computeWatermark
      rw [hm]
    -- the records the second run fetches: the watermark-attaining ones
    have hfilter2 := process_trials_filter_of_good M source hgood
    obtain ⟨rM, hrMmem, hrMdate⟩ := List.mem_filterMap.mp hMspec.1
    have hrMfilter : rM ∈ (process_trials source).filter (matchesRangeRec M) := by
      rw [List.mem_filter]
      refine ⟨hrMmem, ?_⟩
      unfold matchesRangeRec
      rw [hrMdate]
      simp
    have hrec2ne : (process_trials source).filter (matchesRangeRec M) ≠ [] := by
      intro h0
      rw [h0] at hrMfilter
      exact absurd hrMfilter (List.not_mem_nil rM)
    have hrec2Empty : ((process_trials source).filter (matchesRangeRec M)).isEmpty = false := by
      cases hc : (process_trials source).filter (matchesRangeRec M) with
      | nil => exact absurd hc hrec2ne
      | cons a l => rfl
    have hfEmpty : (source.filter (matchesRange M)).isEmpty = false := by
      cases hc : source.filter (matchesRange M) with
      | nil =>
        exfalso
        apply hrec2ne
        rw [← hfilter2, hc]
        rfl
      | cons a l => rfl
    have hfetch2 : fetchRun [serverPage source M] =
        { records := (process_trials source).filter (matchesRangeRec M),
          calls := 1, errored := false } := by
      unfold fetchRun serverPage
      simp [fetchLoop, hfEmpty, hfilter2]
    -- every re-fetched record already sits in the store
    have hexist2 : ∀ t ∈ (process_trials source).filter (matchesRangeRec M),
        t.nct_id ∈ (process_trials source).map (fun r => r.nct_id) := by
      intro t ht
      exact List.mem_map_of_mem (fun r => r.nct_id) (List.mem_of_mem_filter ht)
    obtain ⟨hu, hi, ha⟩ := txFold_all_existing
      ((process_trials source).filter (matchesRangeRec M))
      ⟨process_trials source, 0, 0, false⟩ rfl hexist2
    rw [hrun1]
    unfold runOnce
    rw [hw2]
    unfold mainRun
    rw [hfetch2]
    simp only [hrec2Empty, Bool.false_eq_true, if_false]
    unfold update_database
    constructor
    · simpa using hi
    · have hlen : 0 < ((process_trials source).filter (matchesRangeRec M)).length :=
        List.length_pos.mpr hrec2ne
      simp only [hu]
      omega

/-- witness for C1: two runs against the unchanged one-study source — the
second run reports zero inserts and a positive update count. -/
theorem second_run_zero_inserts_some_updates_witness :
    (runOnce noFail 20240117 oneStudySource
        (runOnce noFail 20240117 oneStudySource []).store).inserted = 0 ∧
    0 < (runOnce noFail 20240117 oneStudySource
        (runOnce noFail 20240117 oneStudySource []).store).updated :=
  second_run_zero_inserts_some_updates 20240117 oneStudySource
    (by decide) (by decide) (by decide) (by decide)
